import Mathlib

/-!
Shallow embedding of the moviestack authentication subsystem:
the token codec and credential validator (src/lib/auth.ts), the four
auth route handlers (register, login, refresh, logout), the client
session manager (src/contexts/AuthContext.tsx), and a fine-grained
interleaving model of two concurrent refresh requests.

Modelling conventions:
- time is a natural number of seconds;
- JWTs are modelled symbolically: a token records which secret signed it
  (`SigningKey`), its payload, its issued-at and expiry instants; HMAC
  signing is deterministic, so structural equality of tokens models
  string equality of the serialized JWTs;
- bcrypt is modelled as an idealized one-way function: a hash remembers
  the plaintext it was derived from, and verification compares plaintexts
  (this captures exactly the boolean behaviour of bcrypt.compare);
- prisma rows are records in a list; cuid primary keys are modelled by a
  monotone counter per table; `findUnique` is `List.find?`, `delete` and
  `deleteMany` remove by id, `create` appends with a fresh id.
-/

namespace MovieStack

/-- Which of the two signing secrets (JWT_SECRET / JWT_REFRESH_SECRET)
signed a token.  The two environment secrets are distinct values. -/
inductive SigningKey where
  | access
  | refresh
deriving DecidableEq, Repr

/-- Claims of an access token: interface JWTPayload { userId; email }. -/
structure JWTPayload where
  userId : Nat
  email : String
deriving DecidableEq, Repr

/-- Claims of a refresh token:
interface RefreshTokenPayload { userId; tokenId }. -/
structure RefreshTokenPayload where
  userId : Nat
  tokenId : Nat
deriving DecidableEq, Repr

/-- Payload of a signed token (the JSON body of the JWT). -/
inductive TokenBody where
  | access (p : JWTPayload)
  | refresh (p : RefreshTokenPayload)
deriving DecidableEq, Repr

/-- A signed JWT, symbolically: the signing secret, the claims, the
issued-at instant and the expiry instant embedded in the payload. -/
structure Token where
  key : SigningKey
  body : TokenBody
  iat : Nat
  exp : Nat
deriving DecidableEq, Repr

/-- Fifteen minutes, the access-token lifetime ("15m"). -/
def accessLifetime : Nat := 15 * 60

/-- Seven days, the refresh-token and record lifetime ("7d" / setDate(+7)). -/
def refreshLifetime : Nat := 7 * 24 * 60 * 60

/-- generateAccessToken: sign the payload with JWT_SECRET, issued at `now`,
expiring 15 minutes later. -/
def generateAccessToken (p : JWTPayload) (now : Nat) : Token :=
  ⟨SigningKey.access, TokenBody.access p, now, now + accessLifetime⟩

/-- generateRefreshToken: sign the payload with JWT_REFRESH_SECRET,
issued at `now`, expiring 7 days later. -/
def generateRefreshToken (p : RefreshTokenPayload) (now : Nat) : Token :=
  ⟨SigningKey.refresh, TokenBody.refresh p, now, now + refreshLifetime⟩

/-- verifyAccessToken: jwtVerify under JWT_SECRET; returns none on wrong
secret, expiry (jose rejects when the current time has reached `exp`) or a
payload of the wrong shape; never throws.  Only generateAccessToken signs
with the access secret, so the refresh-shaped branch is unreachable for
tokens produced by this codebase. -/
def verifyAccessToken (t : Token) (now : Nat) : Option JWTPayload :=
  if t.key = SigningKey.access ∧ now < t.exp then
    match t.body with
    | TokenBody.access p => some p
    | TokenBody.refresh _ => none
  else
    none

/-- verifyRefreshToken: jwtVerify under JWT_REFRESH_SECRET; same contract
as verifyAccessToken on the other signing domain. -/
def verifyRefreshToken (t : Token) (now : Nat) : Option RefreshTokenPayload :=
  if t.key = SigningKey.refresh ∧ now < t.exp then
    match t.body with
    | TokenBody.refresh p => some p
    | TokenBody.access _ => none
  else
    none

/-- Result shape of validatePassword: { valid; error? }. -/
structure PasswordValidation where
  valid : Bool
  error : Option String
deriving DecidableEq, Repr

/-- ASCII uppercase letter, the JS character class [A-Z]. -/
def isUppercaseChar (c : Char) : Bool :=
  decide ('A' ≤ c ∧ c ≤ 'Z')

/-- ASCII alphanumeric, the JS character class [a-zA-Z0-9]. -/
def isAlphanumericChar (c : Char) : Bool :=
  decide (('a' ≤ c ∧ c ≤ 'z') ∨ ('A' ≤ c ∧ c ≤ 'Z') ∨ ('0' ≤ c ∧ c ≤ '9'))

/-- validatePassword: length at least 8, then at least one uppercase
letter or one character outside [a-zA-Z0-9]; the length rule is checked
first and the structured result carries the message of the first violated
rule.  String length is modelled as the character count. -/
def validatePassword (password : String) : PasswordValidation :=
  if password.length < 8 then
    ⟨false, some "Password must be at least 8 characters long"⟩
  else
    let hasUppercaseOrSpecial :=
      password.toList.any isUppercaseChar ||
        password.toList.any (fun c => !isAlphanumericChar c)
    if !hasUppercaseOrSpecial then
      ⟨false,
        some "Password must contain at least one uppercase letter or special character"⟩
    else
      ⟨true, none⟩

/-- Whitespace per the JS regex class \s. -/
def isJsWhitespace (c : Char) : Bool :=
  c = ' ' || c = '\t' || c = '\n' || c.val = 11 || c.val = 12 || c = '\r' ||
    c.val = 0xa0 || c.val = 0x1680 ||
    (0x2000 ≤ c.val && c.val ≤ 0x200a) ||
    c.val = 0x2028 || c.val = 0x2029 || c.val = 0x202f ||
    c.val = 0x205f || c.val = 0x3000 || c.val = 0xfeff

/-- A character admitted by the regex atom [^\s@]. -/
def isEmailAtomChar (c : Char) : Bool :=
  !isJsWhitespace c && c ≠ '@'

/-- validateEmail: the regex /^[^\s@]+@[^\s@]+\.[^\s@]+$/.  The local part
and the domain part cannot contain '@', so the string has exactly one '@';
the domain must admit a split at some '.' leaving both sides nonempty,
which holds exactly when some '.' occurs strictly inside the domain. -/
def validateEmail (email : String) : Bool :=
  let cs := email.toList
  let localPart := cs.takeWhile (fun c => c ≠ '@')
  match cs.dropWhile (fun c => c ≠ '@') with
  | [] => false
  | _ :: domainPart =>
    !localPart.isEmpty && localPart.all isEmailAtomChar &&
      domainPart.all isEmailAtomChar &&
      ((domainPart.drop 1).dropLast.contains '.')

/-- Idealized bcrypt hash: `hashPassword password` is one-way in the code,
and `verifyPassword p h` holds exactly when `h` was derived from `p`;
the random salt does not affect this boolean behaviour. -/
structure BcryptHash where
  plaintext : String
deriving DecidableEq, Repr

/-- bcrypt.hash(password, 12), extensionally. -/
def hashPassword (password : String) : BcryptHash :=
  ⟨password⟩

/-- bcrypt.compare(password, hash), extensionally. -/
def verifyPassword (password : String) (h : BcryptHash) : Bool :=
  password = h.plaintext

/-- The JS toLowerCase(), modelled per character (the emails this model
handles are ASCII, where the JS and per-character lowercases agree). -/
def toLowerStr (s : String) : String :=
  ⟨s.data.map Char.toLower⟩

/-- A User row: id, lowercase-normalized unique email, password hash. -/
structure User where
  id : Nat
  email : String
  passwordHash : BcryptHash
deriving DecidableEq, Repr

/-- A RefreshToken row: id (the tokenId embedded in the signed token),
owning user id, the stored token string (`none` models the empty-string
placeholder written at create time, `some t` the signed token written by
the subsequent update), and the record expiry instant. -/
structure RefreshTokenRecord where
  id : Nat
  userId : Nat
  token : Option Token
  expiresAt : Nat
deriving DecidableEq, Repr

/-- The durable store: the user table, the refresh-token table, and one
monotone counter per table supplying fresh primary keys. -/
structure DB where
  users : List User
  tokens : List RefreshTokenRecord
  nextUserId : Nat
  nextTokenId : Nat
deriving DecidableEq, Repr

/-- prisma.user.findUnique({ where: { email } }). -/
def findUserByEmail (db : DB) (email : String) : Option User :=
  db.users.find? (fun u => u.email = email)

/-- prisma.user.findUnique({ where: { id } }). -/
def findUserById (db : DB) (id : Nat) : Option User :=
  db.users.find? (fun u => u.id = id)

/-- prisma.refreshToken.findUnique({ where: { id } }). -/
def findTokenRecord (db : DB) (id : Nat) : Option RefreshTokenRecord :=
  db.tokens.find? (fun r => r.id = id)

/-- Row removal by id, the effect of prisma.refreshToken.delete /
deleteMany({ where: { id } }). -/
def deleteTokenRecord (db : DB) (id : Nat) : DB :=
  { db with tokens := db.tokens.filter (fun r => r.id ≠ id) }

/-- Whether a row with this id is present. -/
def hasTokenRecord (db : DB) (id : Nat) : Bool :=
  db.tokens.any (fun r => r.id = id)

/-- A Set-Cookie for the refreshToken cookie: `none` value models the
cleared cookie (empty value); maxAge in seconds. -/
structure CookieSet where
  value : Option Token
  maxAge : Nat
deriving DecidableEq, Repr

/-- A JSON response from one of the auth routes: HTTP status, the error
or message string when present, the public user view { id, email }, the
access token, and the refreshToken Set-Cookie when one is issued. -/
structure ApiResponse where
  status : Nat
  error : Option String := none
  message : Option String := none
  userOut : Option (Nat × String) := none
  accessToken : Option Token := none
  setCookie : Option CookieSet := none
deriving DecidableEq, Repr

/-- The shared token-issuance tail of register, login and refresh:
create a RefreshToken row with an empty token and expiry now+7d, sign the
access and refresh tokens (the refresh token embeds the fresh row id),
patch the row with the signed refresh token, and answer with the user
view, the access token and the refresh cookie (maxAge 7 days). -/
def issueTokens (u : User) (db : DB) (now : Nat) (okStatus : Nat) :
    ApiResponse × DB :=
  let rid := db.nextTokenId
  let db1 : DB :=
    { db with
      tokens := db.tokens ++ [⟨rid, u.id, none, now + refreshLifetime⟩],
      nextTokenId := rid + 1 }
  let accessToken := generateAccessToken ⟨u.id, u.email⟩ now
  let refreshToken := generateRefreshToken ⟨u.id, rid⟩ now
  let db2 : DB :=
    { db1 with
      tokens := db1.tokens.map (fun r =>
        if r.id = rid then { r with token := some refreshToken } else r) }
  (⟨okStatus, none, none, some (u.id, u.email), some accessToken,
      some ⟨some refreshToken, refreshLifetime⟩⟩, db2)

/-- POST /api/auth/register: required fields (a missing or empty string
field fails the JS falsiness check), email format, password strength,
case-insensitive uniqueness via the lowercased email, then create the
user with the lowercased email and issue tokens with status 201. -/
def registerPOST (email password : String) (db : DB) (now : Nat) :
    ApiResponse × DB :=
  if email = "" ∨ password = "" then
    ({ status := 400, error := some "Email and password are required" }, db)
  else if !validateEmail email then
    ({ status := 400, error := some "Invalid email format" }, db)
  else
    let v := validatePassword password
    if !v.valid then
      ({ status := 400, error := v.error }, db)
    else
      match findUserByEmail db (toLowerStr email) with
      | some _ =>
        ({ status := 409, error := some "User with this email already exists" }, db)
      | none =>
        let u : User := ⟨db.nextUserId, toLowerStr email, hashPassword password⟩
        let db1 : DB :=
          { db with users := db.users ++ [u], nextUserId := db.nextUserId + 1 }
        issueTokens u db1 now 201

/-- POST /api/auth/login: required fields and email format as in register,
lookup by lowercased email and bcrypt verification, each failure answered
with the same 401 "Invalid email or password"; then the same token
issuance as register, with status 200. -/
def loginPOST (email password : String) (db : DB) (now : Nat) :
    ApiResponse × DB :=
  if email = "" ∨ password = "" then
    ({ status := 400, error := some "Email and password are required" }, db)
  else if !validateEmail email then
    ({ status := 400, error := some "Invalid email format" }, db)
  else
    match findUserByEmail db (toLowerStr email) with
    | none =>
      ({ status := 401, error := some "Invalid email or password" }, db)
    | some u =>
      if !verifyPassword password u.passwordHash then
        ({ status := 401, error := some "Invalid email or password" }, db)
      else
        issueTokens u db now 200

/-- POST /api/auth/refresh: 401 when the cookie is absent, when the
signature or embedded expiry fails, or when no row with the embedded
tokenId exists; when the row is found but its stored token differs from
the presented one or its own expiry has passed, the stale row is deleted
and the call fails 401; otherwise the old row is deleted (rotation) and
tokens are issued afresh.  The row's user is fetched by the same query
(include user); a broken foreign key would surface as a thrown error
caught into a 500, after the rotation delete. -/
def refreshPOST (cookie : Option Token) (db : DB) (now : Nat) :
    ApiResponse × DB :=
  match cookie with
  | none =>
    ({ status := 401, error := some "No refresh token provided" }, db)
  | some tok =>
    match verifyRefreshToken tok now with
    | none =>
      ({ status := 401, error := some "Invalid or expired refresh token" }, db)
    | some payload =>
      match findTokenRecord db payload.tokenId with
      | none =>
        ({ status := 401, error := some "Refresh token not found" }, db)
      | some rec =>
        if rec.token ≠ some tok ∨ rec.expiresAt < now then
          ({ status := 401, error := some "Invalid or expired refresh token" },
            deleteTokenRecord db rec.id)
        else
          let db1 := deleteTokenRecord db rec.id
          match findUserById db rec.userId with
          | none => ({ status := 500, error := some "Internal server error" }, db1)
          | some u => issueTokens u db1 now 200

/-- POST /api/auth/logout: when the cookie is present and verifies, delete
the row with the embedded tokenId (deleteMany: no error when absent);
always answer 200 with the success message and clear the cookie
(empty value, maxAge 0). -/
def logoutPOST (cookie : Option Token) (db : DB) (now : Nat) :
    ApiResponse × DB :=
  let db' :=
    match cookie with
    | none => db
    | some tok =>
      match verifyRefreshToken tok now with
      | none => db
      | some payload => deleteTokenRecord db payload.tokenId
  (⟨200, none, some "Logged out successfully", none, none, some ⟨none, 0⟩⟩, db')

/-- Validity of a presented refresh token against a store state, stated
from the specification: (a) signed under the refresh secret with
refresh-shaped claims, (b) unexpired per the embedded expiry, and (c) a
row whose id equals the embedded tokenId exists, its own expiry is not in
the past, and its stored token equals the presented token exactly. -/
def refreshTokenValid (tok : Token) (db : DB) (now : Nat) : Bool :=
  decide (tok.key = SigningKey.refresh) &&
    decide (now < tok.exp) &&
    (match tok.body with
     | TokenBody.refresh p =>
       match findTokenRecord db p.tokenId with
       | some r => decide (r.token = some tok) && !decide (r.expiresAt < now)
       | none => false
     | TokenBody.access _ => false)

/-- Store well-formedness maintained by every handler: primary keys are
below their table's counter, and every refresh row's userId references an
existing user (the foreign key prisma enforces). -/
def DB.WF (db : DB) : Bool :=
  db.tokens.all (fun r => r.id < db.nextTokenId) &&
    db.users.all (fun u => u.id < db.nextUserId) &&
    db.tokens.all (fun r => db.users.any (fun u => u.id = r.userId))

/-- One request against the auth subsystem, for stating trace properties. -/
inductive Op where
  | register (email password : String) (now : Nat)
  | login (email password : String) (now : Nat)
  | refresh (cookie : Option Token) (now : Nat)
  | logout (cookie : Option Token) (now : Nat)
deriving DecidableEq, Repr

/-- The store state after handling one request. -/
def applyOp (op : Op) (db : DB) : DB :=
  match op with
  | Op.register e p now => (registerPOST e p db now).2
  | Op.login e p now => (loginPOST e p db now).2
  | Op.refresh c now => (refreshPOST c db now).2
  | Op.logout c now => (logoutPOST c db now).2

/-- The store state after handling a sequence of requests. -/
def applyOps (ops : List Op) (db : DB) : DB :=
  ops.foldl (fun d op => applyOp op d) db

/-- In-memory state of the client session manager (AuthProvider): the
user and the access token held by the two useState cells. -/
structure ClientState where
  user : Option (Nat × String)
  accessToken : Option Token
deriving DecidableEq, Repr

/-- The state transitions AuthProvider performs: a successful refresh,
login or register stores the response's user and accessToken together; a
failed refresh and logout clear both together; a failed login or register
throws before touching the state. -/
inductive AuthEvent where
  | refreshOk (u : Nat × String) (t : Token)
  | refreshFail
  | loginOk (u : Nat × String) (t : Token)
  | loginFail
  | registerOk (u : Nat × String) (t : Token)
  | registerFail
  | logoutDone
deriving DecidableEq, Repr

/-- One AuthProvider state update. -/
def authStep (s : ClientState) (e : AuthEvent) : ClientState :=
  match e with
  | AuthEvent.refreshOk u t => ⟨some u, some t⟩
  | AuthEvent.refreshFail => ⟨none, none⟩
  | AuthEvent.loginOk u t => ⟨some u, some t⟩
  | AuthEvent.loginFail => s
  | AuthEvent.registerOk u t => ⟨some u, some t⟩
  | AuthEvent.registerFail => s
  | AuthEvent.logoutDone => ⟨none, none⟩

/-- AuthProvider mounts with user and accessToken both null. -/
def initialClientState : ClientState :=
  ⟨none, none⟩

/-- Client state after a sequence of operations from mount. -/
def runClient (events : List AuthEvent) : ClientState :=
  events.foldl authStep initialClientState

/-- isAuthenticated is defined in the source as the truthiness of user. -/
def isAuthenticated (s : ClientState) : Bool :=
  s.user.isSome

/-- Control point of one in-flight refresh request, between the atomic
database statements it issues.  `start` is before the findUnique;
`staleFound`/`okFound` hold the row the findUnique returned (okFound also
holds the included user); `deletedOld` is after the rotation delete;
`createdNew` is after the create of the fresh row; `finished` carries the
HTTP status of the response. -/
inductive ThreadState where
  | start
  | staleFound (rid : Nat)
  | okFound (rec : RefreshTokenRecord) (u : User)
  | deletedOld (uid : Nat) (em : String)
  | createdNew (rid uid : Nat) (em : String)
  | finished (status : Nat)
deriving DecidableEq, Repr

/-- One atomic database statement of a refresh request presenting `tok`
at time `now`.  prisma's delete and update throw when the row is gone
(error P2025); the route's catch turns that into a 500. -/
def threadStep (tok : Token) (now : Nat) (t : ThreadState) (db : DB) :
    ThreadState × DB :=
  match t with
  | ThreadState.start =>
    match verifyRefreshToken tok now with
    | none => (ThreadState.finished 401, db)
    | some payload =>
      match findTokenRecord db payload.tokenId with
      | none => (ThreadState.finished 401, db)
      | some rec =>
        if rec.token ≠ some tok ∨ rec.expiresAt < now then
          (ThreadState.staleFound rec.id, db)
        else
          match findUserById db rec.userId with
          | none => (ThreadState.finished 500, db)
          | some u => (ThreadState.okFound rec u, db)
  | ThreadState.staleFound rid =>
    if hasTokenRecord db rid then
      (ThreadState.finished 401, deleteTokenRecord db rid)
    else
      (ThreadState.finished 500, db)
  | ThreadState.okFound rec u =>
    if hasTokenRecord db rec.id then
      (ThreadState.deletedOld u.id u.email, deleteTokenRecord db rec.id)
    else
      (ThreadState.finished 500, db)
  | ThreadState.deletedOld uid em =>
    (ThreadState.createdNew db.nextTokenId uid em,
      { db with
        tokens := db.tokens ++ [⟨db.nextTokenId, uid, none, now + refreshLifetime⟩],
        nextTokenId := db.nextTokenId + 1 })
  | ThreadState.createdNew rid uid _ =>
    if hasTokenRecord db rid then
      (ThreadState.finished 200,
        { db with
          tokens := db.tokens.map (fun r =>
            if r.id = rid then { r with token := some (generateRefreshToken ⟨uid, rid⟩ now) }
            else r) })
    else
      (ThreadState.finished 500, db)
  | ThreadState.finished s => (ThreadState.finished s, db)

/-- Two refresh requests sharing the store. -/
structure Sys where
  a : ThreadState
  b : ThreadState
  db : DB
deriving DecidableEq, Repr

/-- Run one atomic statement of thread A (choice true) or B (false). -/
def sysStep (tok : Token) (now : Nat) (s : Sys) (choice : Bool) : Sys :=
  if choice then
    ⟨(threadStep tok now s.a s.db).1, s.b, (threadStep tok now s.a s.db).2⟩
  else
    ⟨s.a, (threadStep tok now s.b s.db).1, (threadStep tok now s.b s.db).2⟩

/-- Run the interleaving chosen by the schedule. -/
def runSys (tok : Token) (now : Nat) (sched : List Bool) (s : Sys) : Sys :=
  sched.foldl (sysStep tok now) s

/-- Both requests start before their first database statement. -/
def initSys (db : DB) : Sys :=
  ⟨ThreadState.start, ThreadState.start, db⟩

/-- Number of successful redemptions a thread's progress accounts for:
1 once it has performed the rotation delete (after which it can only
finish 200 or 500), 0 otherwise. -/
def tWeight : ThreadState → Nat
  | ThreadState.deletedOld _ _ => 1
  | ThreadState.createdNew _ _ _ => 1
  | ThreadState.finished s => if s = 200 then 1 else 0
  | _ => 0

/-- A thread that has located a row holds the row of the presented
token's embedded tokenId. -/
def tTracks (tid : Nat) : ThreadState → Prop
  | ThreadState.staleFound rid => rid = tid
  | ThreadState.okFound rec _ => rec.id = tid
  | _ => True

/-- 1 when a row with this id is in the store, else 0. -/
def presentCount (db : DB) (tid : Nat) : Nat :=
  if hasTokenRecord db tid then 1 else 0

/-- Primary keys of refresh rows stay below the fresh-key counter. -/
def idsBounded (db : DB) : Prop :=
  ∀ r ∈ db.tokens, r.id < db.nextTokenId

/-- Invariant of the two-thread system for the mutual-exclusion proof:
key freshness, each thread tracks the presented tokenId, and at most one
redemption is accounted for across both threads and the store. -/
def SysInv (tid : Nat) (s : Sys) : Prop :=
  idsBounded s.db ∧ tid < s.db.nextTokenId ∧
    tTracks tid s.a ∧ tTracks tid s.b ∧
    tWeight s.a + tWeight s.b + presentCount s.db tid ≤ 1

/-- No live row carries this id and the id can never be minted again:
the rotated-out state of a tokenId. -/
def noLiveRecord (db : DB) (tid : Nat) : Prop :=
  (∀ r ∈ db.tokens, r.id ≠ tid) ∧ tid < db.nextTokenId

/-- A registered user, for concrete runs. -/
def exampleUser : User :=
  ⟨0, "user@example.com", hashPassword "Password1"⟩

/-- A refresh token issued to exampleUser against row id 1 at time 0. -/
def exampleToken : Token :=
  generateRefreshToken ⟨0, 1⟩ 0

/-- The live row backing exampleToken. -/
def exampleRecord : RefreshTokenRecord :=
  ⟨1, 0, some exampleToken, 700000⟩

/-- A store holding exampleUser's live session. -/
def exampleDB : DB :=
  ⟨[exampleUser], [exampleRecord], 1, 2⟩

/-! Helper lemmas shared between the claim theorems. -/

theorem find?_append_left {α : Type} {p : α → Bool} {l₁ l₂ : List α} {a : α}
    (h : l₁.find? p = some a) : (l₁ ++ l₂).find? p = some a := by
  rw [List.find?_append, h]
  rfl

theorem find?_append_right {α : Type} {p : α → Bool} {l₁ l₂ : List α}
    (h : l₁.find? p = none) : (l₁ ++ l₂).find? p = l₂.find? p := by
  rw [List.find?_append, h]
  rfl

theorem findTokenRecord_delete_self (db : DB) (i : Nat) :
    findTokenRecord (deleteTokenRecord db i) i = none := by
  apply List.find?_eq_none.2
  intro r hr
  have := (List.mem_filter.1 hr).2
  simpa using this

theorem find?_filter_ne (l : List RefreshTokenRecord) (i j : Nat) (h : j ≠ i) :
    (l.filter (fun r => decide (r.id ≠ i))).find? (fun r => decide (r.id = j)) =
      l.find? (fun r => decide (r.id = j)) := by
  induction l with
  | nil => rfl
  | cons r rs ih =>
    rw [List.filter_cons, List.find?_cons]
    by_cases hri : r.id = i
    · rw [if_neg (by simp [hri])]
      have hrj : decide (r.id = j) = false := by
        apply decide_eq_false
        intro hj
        exact h (by rw [← hj, hri])
      rw [hrj]
      exact ih
    · rw [if_pos (by simp [hri]), List.find?_cons]
      by_cases hrj : r.id = j
      · rw [decide_eq_true hrj]
      · rw [decide_eq_false hrj]
        exact ih

theorem findTokenRecord_delete_ne (db : DB) (i j : Nat) (h : j ≠ i) :
    findTokenRecord (deleteTokenRecord db i) j = findTokenRecord db j := by
  unfold findTokenRecord deleteTokenRecord
  exact find?_filter_ne db.tokens i j h

theorem issueTokens_users (u : User) (db : DB) (now st : Nat) :
    (issueTokens u db now st).2.users = db.users := rfl

theorem issueTokens_nextTokenId (u : User) (db : DB) (now st : Nat) :
    (issueTokens u db now st).2.nextTokenId = db.nextTokenId + 1 := rfl

theorem issueTokens_nextUserId (u : User) (db : DB) (now st : Nat) :
    (issueTokens u db now st).2.nextUserId = db.nextUserId := rfl

theorem issueTokens_resp (u : User) (db : DB) (now st : Nat) :
    (issueTokens u db now st).1 =
      ⟨st, none, none, some (u.id, u.email),
        some (generateAccessToken ⟨u.id, u.email⟩ now),
        some ⟨some (generateRefreshToken ⟨u.id, db.nextTokenId⟩ now),
          refreshLifetime⟩⟩ := rfl

theorem issueTokens_tokens (u : User) (db : DB) (now st : Nat)
    (h : ∀ r ∈ db.tokens, r.id ≠ db.nextTokenId) :
    (issueTokens u db now st).2.tokens =
      db.tokens ++
        [⟨db.nextTokenId, u.id,
          some (generateRefreshToken ⟨u.id, db.nextTokenId⟩ now),
          now + refreshLifetime⟩] := by
  simp only [issueTokens, List.map_append]
  congr 1
  · have hcongr : ∀ r ∈ db.tokens,
        (if r.id = db.nextTokenId
          then { r with token := some (generateRefreshToken ⟨u.id, db.nextTokenId⟩ now) }
          else r) = id r := by
      intro r hr
      simp [h r hr]
    rw [List.map_congr_left hcongr, List.map_id]
  · simp

theorem refreshPOST_noCookie (db : DB) (now : Nat) :
    refreshPOST none db now =
      ({ status := 401, error := some "No refresh token provided" }, db) := rfl

theorem refreshPOST_badToken (tok : Token) (db : DB) (now : Nat)
    (h : verifyRefreshToken tok now = none) :
    refreshPOST (some tok) db now =
      ({ status := 401, error := some "Invalid or expired refresh token" }, db) := by
  simp [refreshPOST, h]

theorem refreshPOST_notFound (tok : Token) (db : DB) (now : Nat)
    (p : RefreshTokenPayload)
    (hv : verifyRefreshToken tok now = some p)
    (hf : findTokenRecord db p.tokenId = none) :
    refreshPOST (some tok) db now =
      ({ status := 401, error := some "Refresh token not found" }, db) := by
  simp [refreshPOST, hv, hf]

theorem refreshPOST_stale (tok : Token) (db : DB) (now : Nat)
    (p : RefreshTokenPayload) (r : RefreshTokenRecord)
    (hv : verifyRefreshToken tok now = some p)
    (hf : findTokenRecord db p.tokenId = some r)
    (hbad : r.token ≠ some tok ∨ r.expiresAt < now) :
    refreshPOST (some tok) db now =
      ({ status := 401, error := some "Invalid or expired refresh token" },
        deleteTokenRecord db r.id) := by
  simp only [refreshPOST, hv, hf]
  rw [if_pos hbad]

theorem refreshPOST_success (tok : Token) (db : DB) (now : Nat)
    (p : RefreshTokenPayload) (r : RefreshTokenRecord) (u : User)
    (hv : verifyRefreshToken tok now = some p)
    (hf : findTokenRecord db p.tokenId = some r)
    (htok : r.token = some tok)
    (hexp : ¬ r.expiresAt < now)
    (hu : findUserById db r.userId = some u) :
    refreshPOST (some tok) db now =
      issueTokens u (deleteTokenRecord db r.id) now 200 := by
  simp only [refreshPOST, hv, hf, hu]
  rw [if_neg (by push_neg; exact ⟨htok, Nat.le_of_not_lt hexp⟩)]

theorem WF_ids (db : DB) (h : db.WF = true) :
    ∀ r ∈ db.tokens, r.id < db.nextTokenId := by
  unfold DB.WF at h
  simp only [Bool.and_eq_true, List.all_eq_true] at h
  intro r hr
  exact of_decide_eq_true (h.1.1 r hr)

theorem WF_userIds (db : DB) (h : db.WF = true) :
    ∀ u ∈ db.users, u.id < db.nextUserId := by
  unfold DB.WF at h
  simp only [Bool.and_eq_true, List.all_eq_true] at h
  intro u hu
  exact of_decide_eq_true (h.1.2 u hu)

theorem WF_findUser (db : DB) (h : db.WF = true)
    (r : RefreshTokenRecord) (hr : r ∈ db.tokens) :
    ∃ u, findUserById db r.userId = some u := by
  unfold DB.WF at h
  simp only [Bool.and_eq_true, List.all_eq_true] at h
  have hany := h.2 r hr
  rw [List.any_eq_true] at hany
  obtain ⟨u, hu, hid⟩ := hany
  rw [← Option.isSome_iff_exists]
  unfold findUserById
  exact List.find?_isSome.2 ⟨u, hu, hid⟩

theorem refreshTokenValid_eq (tok : Token) (db : DB) (now : Nat) :
    refreshTokenValid tok db now =
      (match verifyRefreshToken tok now with
       | none => false
       | some p =>
         match findTokenRecord db p.tokenId with
         | some r => decide (r.token = some tok) && !decide (r.expiresAt < now)
         | none => false) := by
  obtain ⟨key, body, iat, texp⟩ := tok
  cases key <;> cases body <;>
    by_cases hexp : now < texp <;>
      simp [refreshTokenValid, verifyRefreshToken, hexp]

/-- C4: a token signed by generateAccessToken verifies under
verifyAccessToken before its expiry and yields the original claims, and
never verifies under verifyRefreshToken; symmetrically a token signed by
generateRefreshToken verifies under verifyRefreshToken before its expiry
and never under verifyAccessToken. -/
theorem token_codec_round_trip_cross_domain
    (p : JWTPayload) (q : RefreshTokenPayload) (now t : Nat) :
    (t < now + accessLifetime →
      verifyAccessToken (generateAccessToken p now) t = some p) ∧
    verifyRefreshToken (generateAccessToken p now) t = none ∧
    (t < now + refreshLifetime →
      verifyRefreshToken (generateRefreshToken q now) t = some q) ∧
    verifyAccessToken (generateRefreshToken q now) t = none := by
  refine ⟨fun h => ?_, ?_, fun h => ?_, ?_⟩ <;>
    simp [verifyAccessToken, verifyRefreshToken, generateAccessToken,
      generateRefreshToken, *]

/-- Witness for C4 at concrete claims and the instant one second before
the access expiry. -/
theorem token_codec_round_trip_cross_domain_witness :
    verifyAccessToken (generateAccessToken ⟨7, "user@example.com"⟩ 0) 899 =
        some ⟨7, "user@example.com"⟩ ∧
    verifyRefreshToken (generateAccessToken ⟨7, "user@example.com"⟩ 0) 899 = none ∧
    verifyRefreshToken (generateRefreshToken ⟨7, 3⟩ 0) 899 = some ⟨7, 3⟩ ∧
    verifyAccessToken (generateRefreshToken ⟨7, 3⟩ 0) 899 = none := by
  obtain ⟨h1, h2, h3, h4⟩ :=
    token_codec_round_trip_cross_domain ⟨7, "user@example.com"⟩ ⟨7, 3⟩ 0 899
  exact ⟨h1 (by decide), h2, h3 (by decide), h4⟩

/-- C7: validatePassword accepts exactly the passwords of length at least
8 containing an uppercase letter or a non-alphanumeric character; the
length rule is reported first, then the character-class rule; every short
password fails regardless of classes; "lowercase1" fails while
"Lowercase1" and "lowercase!" pass. -/
theorem validatePassword_spec :
    (∀ pw : String, (validatePassword pw).valid = true ↔
      (8 ≤ pw.length ∧
        (pw.toList.any isUppercaseChar = true ∨
          pw.toList.any (fun c => !isAlphanumericChar c) = true))) ∧
    (∀ pw : String, pw.length < 8 →
      validatePassword pw =
        ⟨false, some "Password must be at least 8 characters long"⟩) ∧
    (∀ pw : String, 8 ≤ pw.length →
      pw.toList.any isUppercaseChar = false →
      pw.toList.any (fun c => !isAlphanumericChar c) = false →
      validatePassword pw =
        ⟨false,
          some "Password must contain at least one uppercase letter or special character"⟩) ∧
    validatePassword "lowercase1" =
      ⟨false,
        some "Password must contain at least one uppercase letter or special character"⟩ ∧
    (validatePassword "Lowercase1").valid = true ∧
    (validatePassword "lowercase!").valid = true := by
  refine ⟨?_, ?_, ?_, by decide, by decide, by decide⟩
  · intro pw
    unfold validatePassword
    by_cases hlen : pw.length < 8
    · simp only [if_pos hlen]
      constructor
      · intro h
        exact absurd h (by decide)
      · rintro ⟨h8, -⟩
        omega
    · rw [if_neg hlen]
      by_cases hU : (pw.toList.any isUppercaseChar ||
          pw.toList.any fun c => !isAlphanumericChar c) = true
      · simp only [hU]
        simp only [Bool.or_eq_true] at hU
        simp only [Bool.not_true, if_neg (by decide : ¬ false = true)]
        constructor
        · intro _
          exact ⟨Nat.le_of_not_lt hlen, hU⟩
        · intro _
          trivial
      · rw [Bool.not_eq_true] at hU
        simp only [hU, Bool.not_false, if_pos trivial]
        constructor
        · intro h
          exact absurd h (by decide)
        · rintro ⟨-, hor⟩
          rcases Bool.or_eq_false_iff.1 hU with ⟨ha, hb⟩
          rcases hor with h | h
          · rw [h] at ha
            cases ha
          · rw [h] at hb
            cases hb
  · intro pw hlen
    unfold validatePassword
    rw [if_pos hlen]
  · intro pw hlen h1 h2
    unfold validatePassword
    rw [if_neg (Nat.not_lt.2 hlen)]
    simp only [h1, h2, Bool.or_false, Bool.not_false, if_pos trivial]

/-- Witness for C7: a short password reports the length rule first and a
long lowercase-only password reports the character-class rule. -/
theorem validatePassword_spec_witness :
    validatePassword "abc" =
      ⟨false, some "Password must be at least 8 characters long"⟩ ∧
    validatePassword "lowercase1" =
      ⟨false,
        some "Password must contain at least one uppercase letter or special character"⟩ ∧
    (validatePassword "Lowercase1").valid = true := by
  refine ⟨validatePassword_spec.2.1 "abc" (by decide),
    validatePassword_spec.2.2.1 "lowercase1" (by decide) (by decide) (by decide),
    validatePassword_spec.2.2.2.2.1⟩

/-- C6: a login whose normalized email matches no user and a login whose
user exists but whose password fails verification produce identical
responses — same 401 status, same error string, no state change — so the
response does not reveal which field was wrong. -/
theorem login_failure_indistinguishable
    (e1 p1 e2 p2 : String) (db1 db2 : DB) (n1 n2 : Nat) (u : User)
    (h1e : e1 ≠ "") (h1p : p1 ≠ "") (h1v : validateEmail e1 = true)
    (h1find : findUserByEmail db1 (toLowerStr e1) = none)
    (h2e : e2 ≠ "") (h2p : p2 ≠ "") (h2v : validateEmail e2 = true)
    (h2find : findUserByEmail db2 (toLowerStr e2) = some u)
    (h2pw : verifyPassword p2 u.passwordHash = false) :
    loginPOST e1 p1 db1 n1 =
      ({ status := 401, error := some "Invalid email or password" }, db1) ∧
    loginPOST e2 p2 db2 n2 =
      ({ status := 401, error := some "Invalid email or password" }, db2) ∧
    (loginPOST e1 p1 db1 n1).1 = (loginPOST e2 p2 db2 n2).1 := by
  have hA : loginPOST e1 p1 db1 n1 =
      ({ status := 401, error := some "Invalid email or password" }, db1) := by
    simp only [loginPOST, h1find]
    rw [if_neg (by push_neg; exact ⟨h1e, h1p⟩), if_neg (by simp [h1v])]
  have hB : loginPOST e2 p2 db2 n2 =
      ({ status := 401, error := some "Invalid email or password" }, db2) := by
    simp only [loginPOST, h2find]
    rw [if_neg (by push_neg; exact ⟨h2e, h2p⟩), if_neg (by simp [h2v]),
      if_pos (by simp [h2pw])]
  exact ⟨hA, hB, by rw [hA, hB]⟩

/-- Witness for C6: unknown email versus wrong password against the
example store, byte-identical responses. -/
theorem login_failure_indistinguishable_witness :
    (loginPOST "nobody@example.com" "whatever1!" exampleDB 5).1 =
      (loginPOST "user@example.com" "WrongPass1" exampleDB 5).1 ∧
    (loginPOST "nobody@example.com" "whatever1!" exampleDB 5).1.status = 401 := by
  obtain ⟨hA, hB, hEq⟩ :=
    login_failure_indistinguishable "nobody@example.com" "whatever1!"
      "user@example.com" "WrongPass1" exampleDB exampleDB 5 5 exampleUser
      (by decide) (by decide) (by decide) (by decide)
      (by decide) (by decide) (by decide) (by decide) (by decide)
  exact ⟨hEq, by rw [hA]⟩

/-- C8: logout always answers 200 with the success message and the
cleared cookie (maxAge 0) in every input state, a second logout answers
identically, and whenever the cookie is present and verifies, the row
with its embedded tokenId is gone afterwards. -/
theorem logout_total_idempotent (cookie : Option Token) (db : DB) (now : Nat) :
    (logoutPOST cookie db now).1.status = 200 ∧
    (logoutPOST cookie db now).1.message = some "Logged out successfully" ∧
    (logoutPOST cookie db now).1.setCookie = some ⟨none, 0⟩ ∧
    (∀ cookie2 now2,
      (logoutPOST cookie2 (logoutPOST cookie db now).2 now2).1 =
        (logoutPOST cookie db now).1) ∧
    (∀ tok p, cookie = some tok → verifyRefreshToken tok now = some p →
      findTokenRecord (logoutPOST cookie db now).2 p.tokenId = none) := by
  refine ⟨rfl, rfl, rfl, fun c2 n2 => rfl, ?_⟩
  intro tok p hc hv
  subst hc
  simp only [logoutPOST, hv]
  exact findTokenRecord_delete_self db p.tokenId

/-- Witness for C8: logging out the example session answers 200 and
deletes row 1. -/
theorem logout_total_idempotent_witness :
    (logoutPOST (some exampleToken) exampleDB 10).1.status = 200 ∧
    findTokenRecord (logoutPOST (some exampleToken) exampleDB 10).2 1 = none := by
  refine ⟨(logout_total_idempotent (some exampleToken) exampleDB 10).1, ?_⟩
  exact (logout_total_idempotent (some exampleToken) exampleDB 10).2.2.2.2
    exampleToken ⟨0, 1⟩ rfl (by decide)

/-- C9: from mount onward, the client session state keeps user and
accessToken null together and non-null together, so isAuthenticated
(user is non-null) holds exactly when an access token is held. -/
theorem client_auth_state_invariant (events : List AuthEvent) :
    ((runClient events).user.isNone = (runClient events).accessToken.isNone) ∧
    (isAuthenticated (runClient events) = (runClient events).accessToken.isSome) := by
  have key : ∀ (s : ClientState), s.user.isNone = s.accessToken.isNone →
      ((events.foldl authStep s).user.isNone =
        (events.foldl authStep s).accessToken.isNone) := by
    induction events with
    | nil =>
      intro s h
      exact h
    | cons e es ih =>
      intro s h
      rw [List.foldl_cons]
      apply ih
      cases e <;> simp [authStep, h]
  have h1 : (runClient events).user.isNone = (runClient events).accessToken.isNone :=
    key initialClientState rfl
  refine ⟨h1, ?_⟩
  unfold isAuthenticated
  cases hu : (runClient events).user <;> cases ht : (runClient events).accessToken <;>
    rw [hu, ht] at h1 <;> simp_all

theorem registerPOST_success (email password : String) (db : DB) (now : Nat)
    (he : email ≠ "") (hp : password ≠ "")
    (hve : validateEmail email = true)
    (hvp : (validatePassword password).valid = true)
    (hnew : findUserByEmail db (toLowerStr email) = none) :
    registerPOST email password db now =
      issueTokens ⟨db.nextUserId, toLowerStr email, hashPassword password⟩
        { db with
          users := db.users ++ [⟨db.nextUserId, toLowerStr email, hashPassword password⟩],
          nextUserId := db.nextUserId + 1 } now 201 := by
  simp only [registerPOST, hnew]
  rw [if_neg (by push_neg; exact ⟨he, hp⟩), if_neg (by simp [hve]),
    if_neg (by simp [hvp])]

theorem registerPOST_dup (email password : String) (db : DB) (now : Nat) (u : User)
    (he : email ≠ "") (hp : password ≠ "")
    (hve : validateEmail email = true)
    (hvp : (validatePassword password).valid = true)
    (hdup : findUserByEmail db (toLowerStr email) = some u) :
    registerPOST email password db now =
      ({ status := 409, error := some "User with this email already exists" }, db) := by
  simp only [registerPOST, hdup]
  rw [if_neg (by push_neg; exact ⟨he, hp⟩), if_neg (by simp [hve]),
    if_neg (by simp [hvp])]

theorem loginPOST_users (email password : String) (db : DB) (now : Nat) :
    (loginPOST email password db now).2.users = db.users := by
  simp only [loginPOST]
  split
  · rfl
  · split
    · rfl
    · split
      · rfl
      · split
        · rfl
        · rfl

theorem refreshPOST_users (cookie : Option Token) (db : DB) (now : Nat) :
    (refreshPOST cookie db now).2.users = db.users := by
  rcases cookie with - | tok
  · rfl
  · simp only [refreshPOST]
    split
    · rfl
    · split
      · rfl
      · split
        · rfl
        · split
          · rfl
          · rfl

theorem logoutPOST_users (cookie : Option Token) (db : DB) (now : Nat) :
    (logoutPOST cookie db now).2.users = db.users := by
  rcases cookie with - | tok
  · rfl
  · simp only [logoutPOST]
    split
    · rfl
    · rfl

theorem applyOp_users (op : Op) (db : DB) :
    ∃ l, (applyOp op db).users = db.users ++ l := by
  cases op with
  | register e p now =>
    simp only [applyOp, registerPOST]
    split
    · exact ⟨[], by simp⟩
    · split
      · exact ⟨[], by simp⟩
      · split
        · exact ⟨[], by simp⟩
        · split
          · exact ⟨[], by simp⟩
          · exact ⟨[⟨db.nextUserId, toLowerStr e, hashPassword p⟩], rfl⟩
  | login e p now =>
    exact ⟨[], by rw [applyOp, loginPOST_users, List.append_nil]⟩
  | refresh c now =>
    exact ⟨[], by rw [applyOp, refreshPOST_users, List.append_nil]⟩
  | logout c now =>
    exact ⟨[], by rw [applyOp, logoutPOST_users, List.append_nil]⟩

theorem findUserByEmail_isSome_applyOp (op : Op) (db : DB) (x : String)
    (h : (findUserByEmail db x).isSome = true) :
    (findUserByEmail (applyOp op db) x).isSome = true := by
  obtain ⟨l, hl⟩ := applyOp_users op db
  unfold findUserByEmail at h ⊢
  rw [hl, List.find?_append]
  obtain ⟨u, hu⟩ := Option.isSome_iff_exists.1 h
  rw [hu]
  rfl

theorem findUserByEmail_isSome_applyOps (ops : List Op) (db : DB) (x : String)
    (h : (findUserByEmail db x).isSome = true) :
    (findUserByEmail (applyOps ops db) x).isSome = true := by
  induction ops generalizing db with
  | nil => exact h
  | cons op rest ih =>
    exact ih (applyOp op db) (findUserByEmail_isSome_applyOp op db x h)

/-- C5: a well-formed registration against a store without that email
succeeds with 201 and stores the lowercased email; afterwards, whatever
further requests are handled, any well-formed registration with a
case variant of the same email fails 409 EmailTaken and leaves the store
unchanged, creating no User and no RefreshTokenRecord. -/
theorem register_unique_case_insensitive
    (email password : String) (db : DB) (now : Nat)
    (he : email ≠ "") (hp : password ≠ "")
    (hve : validateEmail email = true)
    (hvp : (validatePassword password).valid = true)
    (hnew : findUserByEmail db (toLowerStr email) = none) :
    (registerPOST email password db now).1.status = 201 ∧
    (registerPOST email password db now).2.users =
      db.users ++ [⟨db.nextUserId, toLowerStr email, hashPassword password⟩] ∧
    (∀ ops email2 password2 now2,
      toLowerStr email2 = toLowerStr email →
      email2 ≠ "" → password2 ≠ "" →
      validateEmail email2 = true →
      (validatePassword password2).valid = true →
      (registerPOST email2 password2
          (applyOps ops (registerPOST email password db now).2) now2).1.status = 409 ∧
      (registerPOST email2 password2
          (applyOps ops (registerPOST email password db now).2) now2).1.error =
        some "User with this email already exists" ∧
      (registerPOST email2 password2
          (applyOps ops (registerPOST email password db now).2) now2).2 =
        applyOps ops (registerPOST email password db now).2) := by
  have hsucc := registerPOST_success email password db now he hp hve hvp hnew
  have husers : (registerPOST email password db now).2.users =
      db.users ++ [⟨db.nextUserId, toLowerStr email, hashPassword password⟩] := by
    rw [hsucc]
    rfl
  refine ⟨by rw [hsucc]; rfl, husers, ?_⟩
  intro ops e2 p2 n2 h2l h2e h2p h2v h2vp
  have hbase : (findUserByEmail (registerPOST email password db now).2
      (toLowerStr email)).isSome = true := by
    unfold findUserByEmail at hnew ⊢
    rw [husers, List.find?_append, hnew]
    simp
  have hmono := findUserByEmail_isSome_applyOps ops
    (registerPOST email password db now).2 (toLowerStr email) hbase
  obtain ⟨u2, hu2⟩ := Option.isSome_iff_exists.1 hmono
  have hdup : findUserByEmail (applyOps ops (registerPOST email password db now).2)
      (toLowerStr e2) = some u2 := by
    rw [h2l]
    exact hu2
  have hd := registerPOST_dup e2 p2
    (applyOps ops (registerPOST email password db now).2) n2 u2 h2e h2p h2v h2vp hdup
  exact ⟨by rw [hd], by rw [hd], by rw [hd]⟩

/-- Witness for C5: registering a fresh address against the example store
succeeds, and an immediately following registration with a case variant
fails 409 without changing the store. -/
theorem register_unique_case_insensitive_witness :
    (registerPOST "New@Example.com" "Password1" exampleDB 5).1.status = 201 ∧
    (registerPOST "NEW@example.COM" "Password1"
        (registerPOST "New@Example.com" "Password1" exampleDB 5).2 6).1.status = 409 ∧
    (registerPOST "NEW@example.COM" "Password1"
        (registerPOST "New@Example.com" "Password1" exampleDB 5).2 6).2 =
      (registerPOST "New@Example.com" "Password1" exampleDB 5).2 := by
  obtain ⟨h1, -, h3⟩ :=
    register_unique_case_insensitive "New@Example.com" "Password1" exampleDB 5
      (by decide) (by decide) (by decide) (by decide) (by decide)
  obtain ⟨ha, -, hc⟩ :=
    h3 [] "NEW@example.COM" "Password1" 6 (by decide) (by decide) (by decide)
      (by decide) (by decide)
  exact ⟨h1, ha, hc⟩

theorem valid_append (tok : Token) (db db' : DB) (now : Nat)
    (recs : List RefreshTokenRecord)
    (h : db'.tokens = db.tokens ++ recs)
    (hvalid : refreshTokenValid tok db now = true) :
    refreshTokenValid tok db' now = true := by
  rw [refreshTokenValid_eq] at hvalid ⊢
  cases hv : verifyRefreshToken tok now with
  | none =>
    simp only [hv] at hvalid
    cases hvalid
  | some p =>
    simp only [hv] at hvalid ⊢
    cases hf : findTokenRecord db p.tokenId with
    | none =>
      simp only [hf] at hvalid
      cases hvalid
    | some r =>
      simp only [hf] at hvalid
      have hf' : findTokenRecord db' p.tokenId = some r := by
        unfold findTokenRecord at hf ⊢
        rw [h]
        exact find?_append_left hf
      simp only [hf']
      exact hvalid

theorem registerPOST_tokens (email password : String) (db : DB) (now : Nat)
    (hWF : db.WF = true) :
    ∃ recs, (registerPOST email password db now).2.tokens = db.tokens ++ recs ∧
      recs.length ≤ 1 ∧
      ((registerPOST email password db now).1.status = 201 ↔ recs.length = 1) := by
  have hids := WF_ids db hWF
  simp only [registerPOST]
  split
  · exact ⟨[], by simp, by simp, by simp⟩
  · split
    · exact ⟨[], by simp, by simp, by simp⟩
    · split
      · exact ⟨[], by simp, by simp, by simp⟩
      · split
        · exact ⟨[], by simp, by simp, by simp⟩
        · refine ⟨[⟨db.nextTokenId, db.nextUserId,
            some (generateRefreshToken ⟨db.nextUserId, db.nextTokenId⟩ now),
            now + refreshLifetime⟩], ?_, by simp, by simp [issueTokens]⟩
          exact issueTokens_tokens _ _ now 201
            (fun r hr => Nat.ne_of_lt (hids r hr))

theorem loginPOST_tokens (email password : String) (db : DB) (now : Nat)
    (hWF : db.WF = true) :
    ∃ recs, (loginPOST email password db now).2.tokens = db.tokens ++ recs ∧
      recs.length ≤ 1 ∧
      ((loginPOST email password db now).1.status = 200 ↔ recs.length = 1) := by
  have hids := WF_ids db hWF
  simp only [loginPOST]
  split
  · exact ⟨[], by simp, by simp, by simp⟩
  · split
    · exact ⟨[], by simp, by simp, by simp⟩
    · split
      · exact ⟨[], by simp, by simp, by simp⟩
      · split
        · exact ⟨[], by simp, by simp, by simp⟩
        · rename_i u hfind hpw
          refine ⟨[⟨db.nextTokenId, u.id,
            some (generateRefreshToken ⟨u.id, db.nextTokenId⟩ now),
            now + refreshLifetime⟩], ?_, by simp, by simp [issueTokens]⟩
          exact issueTokens_tokens _ _ now 200
            (fun r hr => Nat.ne_of_lt (hids r hr))

/-- C10: register and login append at most one RefreshToken row — exactly
one on success, none on failure — never deleting or modifying a
pre-existing row, so every refresh token valid before the call is still
valid afterwards. -/
theorem issue_ops_frame_preservation
    (email password : String) (db : DB) (now : Nat)
    (hWF : db.WF = true) :
    (∃ recs, (registerPOST email password db now).2.tokens = db.tokens ++ recs ∧
      recs.length ≤ 1 ∧
      ((registerPOST email password db now).1.status = 201 ↔ recs.length = 1)) ∧
    (∃ recs, (loginPOST email password db now).2.tokens = db.tokens ++ recs ∧
      recs.length ≤ 1 ∧
      ((loginPOST email password db now).1.status = 200 ↔ recs.length = 1)) ∧
    (∀ tok, refreshTokenValid tok db now = true →
      refreshTokenValid tok (registerPOST email password db now).2 now = true ∧
      refreshTokenValid tok (loginPOST email password db now).2 now = true) := by
  obtain ⟨r1, h1, h1len, h1iff⟩ := registerPOST_tokens email password db now hWF
  obtain ⟨r2, h2, h2len, h2iff⟩ := loginPOST_tokens email password db now hWF
  refine ⟨⟨r1, h1, h1len, h1iff⟩, ⟨r2, h2, h2len, h2iff⟩, ?_⟩
  intro tok hv
  exact ⟨valid_append tok db _ now r1 h1 hv, valid_append tok db _ now r2 h2 hv⟩

/-- Witness for C10: the example session's refresh token is still valid
after the same user logs in again from another device. -/
theorem issue_ops_frame_preservation_witness :
    refreshTokenValid exampleToken exampleDB 10 = true ∧
    refreshTokenValid exampleToken
      (loginPOST "user@example.com" "Password1" exampleDB 10).2 10 = true := by
  have h := (issue_ops_frame_preservation "user@example.com" "Password1"
    exampleDB 10 (by decide)).2.2 exampleToken (by decide)
  exact ⟨by decide, h.2⟩

theorem verifyRefreshToken_body (tok : Token) (now : Nat) (p : RefreshTokenPayload)
    (h : verifyRefreshToken tok now = some p) :
    tok.key = SigningKey.refresh ∧ tok.body = TokenBody.refresh p ∧ now < tok.exp := by
  unfold verifyRefreshToken at h
  split at h
  · rename_i hc
    cases hb : tok.body with
    | access q =>
      rw [hb] at h
      cases h
    | refresh q =>
      rw [hb] at h
      simp only [] at h
      injection h with h'
      subst h'
      exact ⟨hc.1, rfl, hc.2⟩
  · cases h

theorem noLiveRecord_delete (db : DB) (i tid : Nat)
    (h : noLiveRecord db tid) : noLiveRecord (deleteTokenRecord db i) tid :=
  ⟨fun r hr => h.1 r (List.mem_of_mem_filter hr), h.2⟩

theorem noLiveRecord_issueTokens (u : User) (db : DB) (now st tid : Nat)
    (h : noLiveRecord db tid) : noLiveRecord (issueTokens u db now st).2 tid := by
  obtain ⟨hmem, hlt⟩ := h
  constructor
  · intro r hr
    simp only [issueTokens] at hr
    obtain ⟨r0, hr0, rfl⟩ := List.mem_map.1 hr
    rcases List.mem_append.1 hr0 with hin | hin
    · have := hmem r0 hin
      split <;> simpa using this
    · rcases List.mem_singleton.1 hin with rfl
      split <;> simpa using (Nat.ne_of_lt hlt).symm
  · show tid < db.nextTokenId + 1
    omega

theorem noLiveRecord_applyOp (op : Op) (db : DB) (tid : Nat)
    (h : noLiveRecord db tid) : noLiveRecord (applyOp op db) tid := by
  cases op with
  | register e p now =>
    simp only [applyOp, registerPOST]
    split
    · exact h
    · split
      · exact h
      · split
        · exact h
        · split
          · exact h
          · exact noLiveRecord_issueTokens _ _ now 201 tid ⟨h.1, h.2⟩
  | login e p now =>
    simp only [applyOp, loginPOST]
    split
    · exact h
    · split
      · exact h
      · split
        · exact h
        · split
          · exact h
          · exact noLiveRecord_issueTokens _ _ now 200 tid h
  | refresh c now =>
    rcases c with - | tok
    · exact h
    · simp only [applyOp, refreshPOST]
      split
      · exact h
      · split
        · exact h
        · split
          · exact noLiveRecord_delete _ _ tid h
          · split
            · exact noLiveRecord_delete _ _ tid h
            · exact noLiveRecord_issueTokens _ _ now 200 tid
                (noLiveRecord_delete _ _ tid h)
  | logout c now =>
    rcases c with - | tok
    · exact h
    · simp only [applyOp, logoutPOST]
      split
      · exact h
      · exact noLiveRecord_delete _ _ tid h

theorem noLiveRecord_applyOps (ops : List Op) (db : DB) (tid : Nat)
    (h : noLiveRecord db tid) : noLiveRecord (applyOps ops db) tid := by
  induction ops generalizing db with
  | nil => exact h
  | cons op rest ih => exact ih (applyOp op db) (noLiveRecord_applyOp op db tid h)

theorem refresh_rejected_of_noLiveRecord (tok : Token) (p : RefreshTokenPayload)
    (db : DB) (now' : Nat)
    (hbody : tok.body = TokenBody.refresh p)
    (h : noLiveRecord db p.tokenId) :
    (refreshPOST (some tok) db now').1.status = 401 := by
  cases hv : verifyRefreshToken tok now' with
  | none =>
    rw [refreshPOST_badToken tok db now' hv]
  | some q =>
    have hq : q = p := by
      have hb := (verifyRefreshToken_body tok now' q hv).2.1
      rw [hbody] at hb
      injection hb with h'
      exact h'.symm
    subst hq
    have hf : findTokenRecord db q.tokenId = none := by
      apply List.find?_eq_none.2
      intro r hr
      simpa using h.1 r hr
    rw [refreshPOST_notFound tok db now' q hv hf]

/-- C1: redeeming a valid refresh token succeeds, deletes its row, and
issues a distinct new cookie; re-presenting the old token at any later
time, after any further sequence of requests, fails with a 401, while
presenting the new cookie before its expiry succeeds. -/
theorem refresh_rotation_single_use
    (db : DB) (now : Nat) (c1 : Token) (p : RefreshTokenPayload)
    (r : RefreshTokenRecord)
    (hWF : db.WF = true)
    (hver : verifyRefreshToken c1 now = some p)
    (hfind : findTokenRecord db p.tokenId = some r)
    (htok : r.token = some c1)
    (hexp : ¬ r.expiresAt < now) :
    (refreshPOST (some c1) db now).1.status = 200 ∧
    findTokenRecord (refreshPOST (some c1) db now).2 p.tokenId = none ∧
    (∃ c2, (refreshPOST (some c1) db now).1.setCookie =
        some ⟨some c2, refreshLifetime⟩ ∧
      c2 ≠ c1 ∧
      (∀ now', now' < now + refreshLifetime →
        (refreshPOST (some c2) (refreshPOST (some c1) db now).2 now').1.status = 200)) ∧
    (∀ ops now',
      (refreshPOST (some c1)
        (applyOps ops (refreshPOST (some c1) db now).2) now').1.status = 401) := by
  have hmem := List.mem_of_find?_eq_some hfind
  obtain ⟨u, hu⟩ := WF_findUser db hWF r hmem
  have heq := refreshPOST_success c1 db now p r u hver hfind htok hexp hu
  have hrid : r.id = p.tokenId := by
    have h0 : db.tokens.find? (fun x => decide (x.id = p.tokenId)) = some r := hfind
    have h1 : decide (r.id = p.tokenId) = true :=
      @List.find?_some _ (fun x => decide (x.id = p.tokenId)) r db.tokens h0
    exact of_decide_eq_true h1
  have huid : u.id = r.userId := by
    have h0 : db.users.find? (fun x => decide (x.id = r.userId)) = some u := hu
    have h1 : decide (u.id = r.userId) = true :=
      @List.find?_some _ (fun x => decide (x.id = r.userId)) u db.users h0
    exact of_decide_eq_true h1
  have hlt : r.id < db.nextTokenId := WF_ids db hWF r hmem
  have hbody := (verifyRefreshToken_body c1 now p hver).2.1
  have htokens : (refreshPOST (some c1) db now).2.tokens =
      (deleteTokenRecord db r.id).tokens ++
        [⟨db.nextTokenId, u.id,
          some (generateRefreshToken ⟨u.id, db.nextTokenId⟩ now),
          now + refreshLifetime⟩] := by
    rw [heq]
    exact issueTokens_tokens u (deleteTokenRecord db r.id) now 200
      (fun r' hr' => Nat.ne_of_lt (WF_ids db hWF r' (List.mem_of_mem_filter hr')))
  have hnext : (refreshPOST (some c1) db now).2.nextTokenId = db.nextTokenId + 1 := by
    rw [heq]
    rfl
  have husersS : (refreshPOST (some c1) db now).2.users = db.users := by
    rw [heq]
    rfl
  have hnl : noLiveRecord (refreshPOST (some c1) db now).2 p.tokenId := by
    constructor
    · intro r' hr'
      rw [htokens] at hr'
      rcases List.mem_append.1 hr' with hin | hin
      · have h3 := List.mem_filter.1 hin
        have hne : r'.id ≠ r.id := of_decide_eq_true h3.2
        rw [hrid] at hne
        exact hne
      · rcases List.mem_singleton.1 hin with rfl
        show db.nextTokenId ≠ p.tokenId
        rw [← hrid]
        omega
    · rw [hnext, ← hrid]
      omega
  have h2 : findTokenRecord (refreshPOST (some c1) db now).2 p.tokenId = none := by
    apply List.find?_eq_none.2
    intro r' hr'
    simpa using hnl.1 r' hr'
  refine ⟨by rw [heq]; rfl, h2, ?_, ?_⟩
  · refine ⟨generateRefreshToken ⟨u.id, db.nextTokenId⟩ now,
      by rw [heq]; rfl, ?_, ?_⟩
    · intro hEq
      have hb2 : TokenBody.refresh ⟨u.id, db.nextTokenId⟩ = TokenBody.refresh p := by
        have h4 := congrArg Token.body hEq
        rw [hbody] at h4
        exact h4
      injection hb2 with h5
      have h6 : db.nextTokenId = p.tokenId := congrArg RefreshTokenPayload.tokenId h5
      rw [← hrid] at h6
      omega
    · intro now' hlt'
      have hv2 : verifyRefreshToken (generateRefreshToken ⟨u.id, db.nextTokenId⟩ now)
          now' = some ⟨u.id, db.nextTokenId⟩ := by
        unfold verifyRefreshToken generateRefreshToken
        rw [if_pos ⟨rfl, hlt'⟩]
      have hnone : (deleteTokenRecord db r.id).tokens.find?
          (fun x => decide (x.id = db.nextTokenId)) = none := by
        apply List.find?_eq_none.2
        intro r' hr'
        have h7 := WF_ids db hWF r' (List.mem_of_mem_filter hr')
        simpa using Nat.ne_of_lt h7
      have hf2 : findTokenRecord (refreshPOST (some c1) db now).2 db.nextTokenId =
          some ⟨db.nextTokenId, u.id,
            some (generateRefreshToken ⟨u.id, db.nextTokenId⟩ now),
            now + refreshLifetime⟩ := by
        unfold findTokenRecord
        rw [htokens, find?_append_right hnone]
        simp
      have hu2 : findUserById (refreshPOST (some c1) db now).2 u.id = some u := by
        unfold findUserById
        rw [husersS, huid]
        exact hu
      have heq2 := refreshPOST_success
        (generateRefreshToken ⟨u.id, db.nextTokenId⟩ now)
        (refreshPOST (some c1) db now).2 now'
        ⟨u.id, db.nextTokenId⟩
        ⟨db.nextTokenId, u.id,
          some (generateRefreshToken ⟨u.id, db.nextTokenId⟩ now),
          now + refreshLifetime⟩
        u hv2 hf2 rfl (by show ¬ now + refreshLifetime < now'; omega) hu2
      rw [heq2]
      rfl
  · intro ops now'
    exact refresh_rejected_of_noLiveRecord c1 p _ now' hbody
      (noLiveRecord_applyOps ops _ p.tokenId hnl)

/-- Witness for C1 on the example session: the first redemption succeeds,
the row is gone, re-presenting the old cookie fails 401, and presenting
the newly issued cookie succeeds. -/
theorem refresh_rotation_single_use_witness :
    (refreshPOST (some exampleToken) exampleDB 10).1.status = 200 ∧
    findTokenRecord (refreshPOST (some exampleToken) exampleDB 10).2 1 = none ∧
    (refreshPOST (some exampleToken)
      (applyOps [] (refreshPOST (some exampleToken) exampleDB 10).2) 20).1.status = 401 ∧
    (refreshPOST (some (generateRefreshToken ⟨0, 2⟩ 10))
      (refreshPOST (some exampleToken) exampleDB 10).2 20).1.status = 200 := by
  obtain ⟨h1, h2, h3, h4⟩ :=
    refresh_rotation_single_use exampleDB 10 exampleToken ⟨0, 1⟩ exampleRecord
      (by decide) (by decide) (by decide) (by decide) (by decide)
  obtain ⟨c2, hc2, -, hs⟩ := h3
  have hcookie : (refreshPOST (some exampleToken) exampleDB 10).1.setCookie =
      some ⟨some (generateRefreshToken ⟨0, 2⟩ 10), refreshLifetime⟩ := by decide
  have h8 := hc2.symm.trans hcookie
  injection h8 with h9
  injection h9 with hval hmax
  injection hval with hc2g
  subst hc2g
  exact ⟨h1, h2, h4 [] 20, hs 20 (by decide)⟩

/-- C2: with the cookie present, refresh answers 200 exactly when the
presented token is valid per the three-part specification condition
(signature domain, embedded expiry, matching unexpired row storing the
same token string); otherwise it answers 401, and when a row was found
but the string comparison or the row expiry failed, that stale row is
deleted before failing. -/
theorem refresh_success_iff_valid (tok : Token) (db : DB) (now : Nat)
    (hWF : db.WF = true) :
    ((refreshPOST (some tok) db now).1.status = 200 ↔
      refreshTokenValid tok db now = true) ∧
    ((refreshPOST (some tok) db now).1.status = 200 ∨
      (refreshPOST (some tok) db now).1.status = 401) ∧
    (∀ p r, verifyRefreshToken tok now = some p →
      findTokenRecord db p.tokenId = some r →
      (r.token ≠ some tok ∨ r.expiresAt < now) →
      (refreshPOST (some tok) db now).1.status = 401 ∧
      (refreshPOST (some tok) db now).1.error =
        some "Invalid or expired refresh token" ∧
      (refreshPOST (some tok) db now).2 = deleteTokenRecord db r.id) := by
  rw [refreshTokenValid_eq]
  cases hv : verifyRefreshToken tok now with
  | none =>
    rw [refreshPOST_badToken tok db now hv]
    refine ⟨by simp, Or.inr rfl, ?_⟩
    intro p r hp hf hbad
    cases hp
  | some p =>
    cases hf : findTokenRecord db p.tokenId with
    | none =>
      rw [refreshPOST_notFound tok db now p hv hf]
      refine ⟨?_, Or.inr rfl, ?_⟩
      · simp only [hf]
        simp
      · intro p' r' hp' hf' hbad
        injection hp' with hpp
        subst hpp
        rw [hf] at hf'
        cases hf'
    | some r =>
      have hpr : ∀ p' r', (some p : Option RefreshTokenPayload) = some p' →
          findTokenRecord db p'.tokenId = some r' → p' = p ∧ r' = r := by
        intro p' r' hp' hf'
        injection hp' with hpp
        subst hpp
        rw [hf] at hf'
        injection hf' with hrr
        exact ⟨rfl, hrr.symm⟩
      by_cases hbad : r.token ≠ some tok ∨ r.expiresAt < now
      · rw [refreshPOST_stale tok db now p r hv hf hbad]
        refine ⟨?_, Or.inr rfl, ?_⟩
        · simp only [hf]
          constructor
          · intro h
            exact absurd h (by decide)
          · intro h
            rw [Bool.and_eq_true, decide_eq_true_iff, Bool.not_eq_true',
              decide_eq_false_iff_not] at h
            rcases hbad with hb | hb
            · exact absurd h.1 hb
            · exact absurd hb h.2
        · intro p' r' hp' hf' hbad'
          obtain ⟨-, hrr⟩ := hpr p' r' hp' hf'
          subst hrr
          exact ⟨rfl, rfl, rfl⟩
      · push_neg at hbad
        obtain ⟨htok, hexp⟩ := hbad
        obtain ⟨u, hu⟩ := WF_findUser db hWF r (List.mem_of_find?_eq_some hf)
        rw [refreshPOST_success tok db now p r u hv hf htok
          (Nat.not_lt.2 hexp) hu]
        refine ⟨?_, Or.inl rfl, ?_⟩
        · simp only [hf]
          constructor
          · intro _
            rw [Bool.and_eq_true, decide_eq_true_iff, Bool.not_eq_true',
              decide_eq_false_iff_not]
            exact ⟨htok, Nat.not_lt.2 hexp⟩
          · intro _
            rfl
        · intro p' r' hp' hf' hbad'
          obtain ⟨-, hrr⟩ := hpr p' r' hp' hf'
          subst hrr
          rcases hbad' with hb | hb
          · exact absurd htok hb
          · exact absurd hb (Nat.not_lt.2 hexp)

/-- Witness for C2 on the example store: the valid example token
satisfies the validity predicate and refresh answers 200; a token with a
valid signature whose row stores a different string is refused with the
stale row deleted. -/
theorem refresh_success_iff_valid_witness :
    ((refreshPOST (some exampleToken) exampleDB 10).1.status = 200 ↔
      refreshTokenValid exampleToken exampleDB 10 = true) ∧
    (refreshPOST (some (generateRefreshToken ⟨0, 1⟩ 5)) exampleDB 10).1.status = 401 ∧
    (refreshPOST (some (generateRefreshToken ⟨0, 1⟩ 5)) exampleDB 10).2 =
      deleteTokenRecord exampleDB 1 := by
  refine ⟨(refresh_success_iff_valid exampleToken exampleDB 10 (by decide)).1, ?_⟩
  have h := (refresh_success_iff_valid (generateRefreshToken ⟨0, 1⟩ 5) exampleDB 10
      (by decide)).2.2
    ⟨0, 1⟩ exampleRecord (by decide) (by decide) (by decide)
  exact ⟨h.1, h.2.2⟩

theorem hasTokenRecord_delete_self (db : DB) (i : Nat) :
    hasTokenRecord (deleteTokenRecord db i) i = false := by
  apply Bool.eq_false_iff.2
  intro hx
  obtain ⟨r, hr, hid⟩ := List.any_eq_true.1 hx
  have h2 := (List.mem_filter.1 hr).2
  rw [of_decide_eq_true hid] at h2
  simp at h2

theorem idsBounded_delete (db : DB) (i : Nat) (h : idsBounded db) :
    idsBounded (deleteTokenRecord db i) :=
  fun r hr => h r (List.mem_of_mem_filter hr)

theorem presentCount_le_one (db : DB) (tid : Nat) : presentCount db tid ≤ 1 := by
  unfold presentCount
  split <;> omega

theorem presentCount_pos_of_has (db : DB) (tid : Nat)
    (h : hasTokenRecord db tid = true) : presentCount db tid = 1 := by
  unfold presentCount
  rw [h]
  rfl

theorem presentCount_delete_self (db : DB) (i : Nat) :
    presentCount (deleteTokenRecord db i) i = 0 := by
  unfold presentCount
  rw [hasTokenRecord_delete_self]
  rfl

theorem any_id_map_update (l : List RefreshTokenRecord) (rid : Nat) (tk : Token)
    (tid : Nat) :
    (l.map (fun r => if r.id = rid then { r with token := some tk } else r)).any
      (fun r => decide (r.id = tid)) = l.any (fun r => decide (r.id = tid)) := by
  induction l with
  | nil => rfl
  | cons r rs ih =>
    simp only [List.map_cons, List.any_cons, ih]
    congr 1
    split <;> rfl

theorem idsBounded_map_update (db : DB) (rid : Nat) (tk : Token)
    (h : idsBounded db) :
    idsBounded { db with
      tokens := db.tokens.map (fun r =>
        if r.id = rid then { r with token := some tk } else r) } := by
  intro r hr
  obtain ⟨r0, hr0, rfl⟩ := List.mem_map.1 hr
  show _ < db.nextTokenId
  split <;> exact h r0 hr0

theorem presentCount_eq_zero (db : DB) (tid : Nat)
    (h : ∀ r ∈ db.tokens, r.id ≠ tid) : presentCount db tid = 0 := by
  unfold presentCount hasTokenRecord
  have hfalse : db.tokens.any (fun r => decide (r.id = tid)) = false := by
    apply Bool.eq_false_iff.2
    intro hx
    obtain ⟨r, hr, hid⟩ := List.any_eq_true.1 hx
    exact h r hr (of_decide_eq_true hid)
  rw [hfalse]
  rfl

theorem presentCount_zero_mem (db : DB) (tid : Nat)
    (h : presentCount db tid = 0) : ∀ r ∈ db.tokens, r.id ≠ tid := by
  intro r hr hid
  unfold presentCount hasTokenRecord at h
  rw [if_pos (List.any_eq_true.2 ⟨r, hr, decide_eq_true hid⟩)] at h
  cases h

theorem threadStep_inv (tok : Token) (now : Nat) (p : RefreshTokenPayload)
    (hver : verifyRefreshToken tok now = some p)
    (t : ThreadState) (db : DB) (w : Nat)
    (hids : idsBounded db) (htid : p.tokenId < db.nextTokenId)
    (hok : tTracks p.tokenId t)
    (hcount : tWeight t + w + presentCount db p.tokenId ≤ 1) :
    idsBounded (threadStep tok now t db).2 ∧
    p.tokenId < (threadStep tok now t db).2.nextTokenId ∧
    tTracks p.tokenId (threadStep tok now t db).1 ∧
    tWeight (threadStep tok now t db).1 + w +
      presentCount (threadStep tok now t db).2 p.tokenId ≤ 1 := by
  cases t with
  | start =>
    simp only [threadStep, hver]
    split
    · exact ⟨hids, htid, trivial, hcount⟩
    · rename_i rec hf
      have hrid : rec.id = p.tokenId := by
        have h0 : db.tokens.find? (fun x => decide (x.id = p.tokenId)) = some rec := hf
        have h1 : decide (rec.id = p.tokenId) = true :=
          @List.find?_some _ (fun x => decide (x.id = p.tokenId)) rec db.tokens h0
        exact of_decide_eq_true h1
      split
      · exact ⟨hids, htid, hrid, hcount⟩
      · split
        · exact ⟨hids, htid, trivial, hcount⟩
        · exact ⟨hids, htid, hrid, hcount⟩
  | staleFound rid =>
    have hok' : rid = p.tokenId := hok
    simp only [threadStep]
    split
    · refine ⟨idsBounded_delete db rid hids, htid, trivial, ?_⟩
      have hp0 : presentCount (deleteTokenRecord db rid) p.tokenId = 0 := by
        rw [← hok']
        exact presentCount_delete_self db rid
      have hc : 0 + w + presentCount db p.tokenId ≤ 1 := hcount
      have hgoal : 0 + w + presentCount (deleteTokenRecord db rid) p.tokenId ≤ 1 := by
        rw [hp0]
        omega
      exact hgoal
    · exact ⟨hids, htid, trivial, hcount⟩
  | okFound rec u =>
    have hok' : rec.id = p.tokenId := hok
    simp only [threadStep]
    split
    · rename_i hpres
      have hp1 : presentCount db p.tokenId = 1 :=
        presentCount_pos_of_has db _ (hok' ▸ hpres)
      refine ⟨idsBounded_delete db rec.id hids, htid, trivial, ?_⟩
      have hp0 : presentCount (deleteTokenRecord db rec.id) p.tokenId = 0 := by
        rw [← hok']
        exact presentCount_delete_self db rec.id
      have hc : 0 + w + presentCount db p.tokenId ≤ 1 := hcount
      have hgoal : 1 + w + presentCount (deleteTokenRecord db rec.id) p.tokenId ≤ 1 := by
        rw [hp0, hp1] at *
        omega
      exact hgoal
    · exact ⟨hids, htid, trivial, hcount⟩
  | deletedOld uid em =>
    simp only [threadStep]
    have hc : 1 + w + presentCount db p.tokenId ≤ 1 := hcount
    have hple := presentCount_le_one db p.tokenId
    have hpc0 : presentCount db p.tokenId = 0 := by omega
    refine ⟨?_, by show p.tokenId < db.nextTokenId + 1; omega, trivial, ?_⟩
    · intro r hr
      show r.id < db.nextTokenId + 1
      rcases List.mem_append.1 hr with hin | hin
      · have := hids r hin
        omega
      · rcases List.mem_singleton.1 hin with rfl
        show db.nextTokenId < db.nextTokenId + 1
        omega
    · have hpc' : presentCount
          { db with
            tokens := db.tokens ++
              [⟨db.nextTokenId, uid, none, now + refreshLifetime⟩],
            nextTokenId := db.nextTokenId + 1 } p.tokenId = 0 := by
        apply presentCount_eq_zero
        intro r hr
        rcases List.mem_append.1 hr with hin | hin
        · exact presentCount_zero_mem db p.tokenId hpc0 r hin
        · rcases List.mem_singleton.1 hin with rfl
          show db.nextTokenId ≠ p.tokenId
          omega
      have hgoal : 1 + w +
          presentCount
            { db with
              tokens := db.tokens ++
                [⟨db.nextTokenId, uid, none, now + refreshLifetime⟩],
              nextTokenId := db.nextTokenId + 1 } p.tokenId ≤ 1 := by
        rw [hpc']
        omega
      exact hgoal
  | createdNew rid uid em =>
    have hc : 1 + w + presentCount db p.tokenId ≤ 1 := hcount
    have hple := presentCount_le_one db p.tokenId
    simp only [threadStep]
    split
    · refine ⟨idsBounded_map_update db rid (generateRefreshToken ⟨uid, rid⟩ now) hids,
        htid, trivial, ?_⟩
      have hpres' : presentCount
          { db with
            tokens := db.tokens.map (fun r =>
              if r.id = rid
              then { r with token := some (generateRefreshToken ⟨uid, rid⟩ now) }
              else r) } p.tokenId = presentCount db p.tokenId := by
        unfold presentCount hasTokenRecord
        rw [any_id_map_update]
      have hgoal : 1 + w +
          presentCount
            { db with
              tokens := db.tokens.map (fun r =>
                if r.id = rid
                then { r with token := some (generateRefreshToken ⟨uid, rid⟩ now) }
                else r) } p.tokenId ≤ 1 := by
        rw [hpres']
        omega
      exact hgoal
    · have hgoal : 0 + w + presentCount db p.tokenId ≤ 1 := by omega
      exact ⟨hids, htid, trivial, hgoal⟩
  | finished s =>
    exact ⟨hids, htid, trivial, hcount⟩

theorem sysStep_inv (tok : Token) (now : Nat) (p : RefreshTokenPayload)
    (hver : verifyRefreshToken tok now = some p)
    (choice : Bool) (s : Sys)
    (h : SysInv p.tokenId s) : SysInv p.tokenId (sysStep tok now s choice) := by
  obtain ⟨hids, htid, ha, hb, hcount⟩ := h
  cases choice with
  | true =>
    have step := threadStep_inv tok now p hver s.a s.db (tWeight s.b)
      hids htid ha hcount
    exact ⟨step.1, step.2.1, step.2.2.1, hb, step.2.2.2⟩
  | false =>
    have hc : tWeight s.b + tWeight s.a + presentCount s.db p.tokenId ≤ 1 := by
      omega
    have step := threadStep_inv tok now p hver s.b s.db (tWeight s.a)
      hids htid hb hc
    refine ⟨step.1, step.2.1, ha, step.2.2.1, ?_⟩
    have hstep := step.2.2.2
    have hgoal : tWeight s.a + tWeight (threadStep tok now s.b s.db).1 +
        presentCount (threadStep tok now s.b s.db).2 p.tokenId ≤ 1 := by omega
    exact hgoal

theorem runSys_inv (tok : Token) (now : Nat) (p : RefreshTokenPayload)
    (hver : verifyRefreshToken tok now = some p)
    (sched : List Bool) (s : Sys)
    (h : SysInv p.tokenId s) : SysInv p.tokenId (runSys tok now sched s) := by
  induction sched generalizing s with
  | nil => exact h
  | cons c cs ih =>
    exact ih (sysStep tok now s c) (sysStep_inv tok now p hver c s h)

/-- Counterexample to C3 as stated: interleaving the two refresh requests
as A-read, B-read leaves both threads having observed the token as valid
(the claim says this can never happen), and completing that interleaving
ends with thread A succeeding (200) while thread B's rotation delete
throws, producing a 500 Internal-server-error response — not the claimed
401 InvalidOrExpiredRefreshToken. -/
theorem concurrent_refresh_both_observe_counterexample :
    (runSys exampleToken 10 [true, false] (initSys exampleDB)).a =
      ThreadState.okFound exampleRecord exampleUser ∧
    (runSys exampleToken 10 [true, false] (initSys exampleDB)).b =
      ThreadState.okFound exampleRecord exampleUser ∧
    (runSys exampleToken 10 [true, false, true, true, true, false]
        (initSys exampleDB)).a = ThreadState.finished 200 ∧
    (runSys exampleToken 10 [true, false, true, true, true, false]
        (initSys exampleDB)).b = ThreadState.finished 500 := by
  exact ⟨by decide, by decide, by decide, by decide⟩

/-- C3 (amended): in every interleaving of two concurrent refresh requests
presenting the same refresh token against a well-formed store holding its
row, at most one request finishes with 200 — the per-row atomicity of the
rotation delete prevents double redemption — but the losing request may
finish with 500 (delete on the already-rotated row throws) rather than
401, and both requests can observe the token as valid first. -/
theorem concurrent_refresh_at_most_one_succeeds
    (tok : Token) (now : Nat) (db : DB) (p : RefreshTokenPayload)
    (sched : List Bool)
    (hWF : db.WF = true)
    (hver : verifyRefreshToken tok now = some p)
    (hpresent : hasTokenRecord db p.tokenId = true) :
    ¬((runSys tok now sched (initSys db)).a = ThreadState.finished 200 ∧
      (runSys tok now sched (initSys db)).b = ThreadState.finished 200) := by
  rintro ⟨hA, hB⟩
  have hids : idsBounded db := WF_ids db hWF
  obtain ⟨r, hr, hid⟩ := List.any_eq_true.1 hpresent
  have htid : p.tokenId < db.nextTokenId := by
    have h2 := hids r hr
    rw [← of_decide_eq_true hid]
    exact h2
  have hinv0 : SysInv p.tokenId (initSys db) := by
    refine ⟨hids, htid, trivial, trivial, ?_⟩
    have hple := presentCount_le_one db p.tokenId
    have hgoal : 0 + 0 + presentCount db p.tokenId ≤ 1 := by omega
    exact hgoal
  have hinv := runSys_inv tok now p hver sched (initSys db) hinv0
  obtain ⟨-, -, -, -, hcount⟩ := hinv
  rw [hA, hB] at hcount
  have hfinal : (1 : Nat) + 1 +
      presentCount (runSys tok now sched (initSys db)).db p.tokenId ≤ 1 := hcount
  omega

/-- Witness for the amended C3 at the counterexample interleaving: that
schedule cannot end with both requests succeeding. -/
theorem concurrent_refresh_at_most_one_succeeds_witness :
    ¬((runSys exampleToken 10 [true, false, true, true, true, false]
        (initSys exampleDB)).a = ThreadState.finished 200 ∧
      (runSys exampleToken 10 [true, false, true, true, true, false]
        (initSys exampleDB)).b = ThreadState.finished 200) :=
  concurrent_refresh_at_most_one_succeeds exampleToken 10 exampleDB ⟨0, 1⟩
    [true, false, true, true, true, false] (by decide) (by decide) (by decide)
